import Mathlib

/-!
A verification development for `colls.py`, a wrapper around a directory
listing tool that re-renders its line-oriented output with user-selected,
reordered, aligned columns while preserving ANSI escape sequences.

The Python source is shallowly embedded here:

* pure string helpers (`strip_ansi_codes`, `get_color_code`,
  `strip_quotes_python`, `split_line_into_columns`) become Lean functions on
  `String` / `List Char`;
* Python `re.sub` / `re.finditer` scans are embedded as left-to-right,
  non-overlapping scanners; since their recursion consumes an arbitrary
  strictly shorter suffix after each match, they take an explicit fuel
  argument (always called with the input length, which is sufficient) so
  that all definitions stay structurally recursive and kernel-computable;
* fallible code (the `filename, rest = part.split(' -> ', 1)` unpacking,
  which raises `ValueError` when the separator is absent, and the
  `output = selected_padded[0]` indexing) is modelled with `Option`;
* Python `str * int` with a negative count yields the empty string, and
  `str.ljust` never truncates; both are modelled with `Int.toNat` / `Nat`
  truncated subtraction;
* Python whitespace (`str.strip()` / `str.split()`) is modelled by the
  ASCII whitespace characters; inputs in this development are ASCII.
-/

/-- ASCII characters treated as whitespace by Python `str.split()` /
`str.strip()`. -/
def pyIsSpace (c : Char) : Bool :=
  c == ' ' || c == '\t' || c == '\n' || c == '\r' || c == '\x0b' || c == '\x0c'

/-- Python `s.strip()` on a character list. -/
def pyStrip (l : List Char) : List Char :=
  ((l.dropWhile pyIsSpace).reverse.dropWhile pyIsSpace).reverse

/-- Python `s.strip()` on a `String`. -/
def pyStripS (s : String) : String :=
  ⟨pyStrip s.data⟩

/-- Python `s.startswith(pre)`. -/
def pyStartsWith (s pre : String) : Bool :=
  pre.data.isPrefixOf s.data

/-- One whitespace-delimited token and the rest of the input with the
delimiting whitespace run consumed (as in Python `str.split(maxsplit=...)`). -/
def nextTok (s : List Char) : List Char × List Char :=
  let t := s.takeWhile (fun c => !pyIsSpace c)
  (t, (s.drop t.length).dropWhile pyIsSpace)

/-- Python `s.split(maxsplit=8)`: at most 8 splits on whitespace runs, the
ninth chunk is the remaining text verbatim.  Unrolled for the fixed
`maxsplit=8` of the source.  Empty chunks arise only when the input is
exhausted, so filtering them reproduces Python's list. -/
def pySplit8 (l : List Char) : List (List Char) :=
  let s0 := l.dropWhile pyIsSpace
  let p0 := nextTok s0
  let p1 := nextTok p0.2
  let p2 := nextTok p1.2
  let p3 := nextTok p2.2
  let p4 := nextTok p3.2
  let p5 := nextTok p4.2
  let p6 := nextTok p5.2
  let p7 := nextTok p6.2
  ([p0.1, p1.1, p2.1, p3.1, p4.1, p5.1, p6.1, p7.1, p7.2]).filter (fun t => t ≠ [])

/-- Recognizer for the parameter bytes of an ANSI escape (`[0-9;]`). -/
def isParamChar (c : Char) : Bool :=
  c.isDigit || c == ';'

/-- Skip the `[0-9;]*` run of an escape body and accept an `m` or `K`
terminator, returning the remaining input; `none` when the regex
`\x1b\[[0-9;]*[mK]` does not match here. -/
def dropParams : List Char → Option (List Char)
  | [] => none
  | c :: rest =>
    if isParamChar c then dropParams rest
    else if c == 'm' || c == 'K' then some rest
    else none

/-- The scanner of `re.sub(r'\x1b\[[0-9;]*[mK]', '', text)`: left-to-right,
non-overlapping; on a match the span is dropped and scanning resumes after
it, otherwise one character is emitted.  `fuel` bounds the recursion; it is
always called with the input length, which never runs out because every
step consumes at least one input character. -/
def stripAnsiGo : Nat → List Char → List Char
  | 0, l => l
  | _ + 1, [] => []
  | fuel + 1, c :: rest =>
    if c = '\x1b' then
      match rest with
      | '[' :: rest2 =>
        match dropParams rest2 with
        | some rem => stripAnsiGo fuel rem
        | none => c :: stripAnsiGo fuel rest
      | _ => c :: stripAnsiGo fuel rest
    else c :: stripAnsiGo fuel rest

/-- `strip_ansi_codes` (colls.py:22-24): remove ANSI color codes. -/
def strip_ansi_codes (text : String) : String :=
  ⟨stripAnsiGo text.data.length text.data⟩

/-- Take the `[0-9;]*` parameter run of a color escape, requiring an `m`
terminator (the `re.finditer(r'\x1b\[([0-9;]*)m', text)` pattern, which
does not accept `K`); returns the captured parameters and the rest. -/
def takeParams : List Char → Option (List Char × List Char)
  | [] => none
  | c :: rest =>
    if isParamChar c then (takeParams rest).map (fun pr => (c :: pr.1, pr.2))
    else if c = 'm' then some ([], rest)
    else none

/-- The scanner of `re.finditer(r'\x1b\[([0-9;]*)m', text)`: the list of
captured parameter strings of the non-overlapping matches, left to right.
Fuel as in `stripAnsiGo`. -/
def colorScanGo : Nat → List Char → List (List Char)
  | 0, _ => []
  | _ + 1, [] => []
  | fuel + 1, c :: rest =>
    if c = '\x1b' then
      match rest with
      | '[' :: rest2 =>
        match takeParams rest2 with
        | some pr => pr.1 :: colorScanGo fuel pr.2
        | none => colorScanGo fuel rest
      | _ => colorScanGo fuel rest
    else colorScanGo fuel rest

/-- `get_color_code` (colls.py:26-33): the last matched color escape whose
parameter string is not exactly `"0"`, or the empty string. -/
def get_color_code (text : String) : String :=
  match (colorScanGo text.data.length text.data).reverse.find?
      (fun code => decide (code ≠ ['0'])) with
  | some code => ⟨'\x1b' :: '[' :: (code ++ ['m'])⟩
  | none => ""

/-- First index of a character in a list (Python `str.find`, guarded use). -/
def findIdx0 (c : Char) : List Char → Option Nat
  | [] => none
  | x :: xs => if x = c then some 0 else (findIdx0 c xs).map (fun i => i + 1)

/-- The type-indicator characters appended by `ls -F` (colls.py:46). -/
def quoteIndicators : List Char := ['*', '/', '@', '|', '=']

/-- `strip_quotes_python` (colls.py:35-73): strip the outer quote pair added
by `ls -lQ`, preserving ANSI codes, internal quotes and a trailing type
indicator.  `start`/`stop` model `col.find('"')` and `col.rfind('"') + 1`;
under the guard both quotes exist, so the `-1` failure value of Python
`find` cannot occur and `getD 0` is never exercised. -/
def strip_quotes_python (col : String) (keep_indicator : Bool) : String :=
  if col.data = [] then col
  else
    let clean := (strip_ansi_codes col).data
    if (match clean with
        | '"' :: rest => rest.contains '"'
        | _ => false) then
      let cd := col.data
      let start : Nat := (findIdx0 '"' cd).getD 0
      let stop : Nat := cd.length - ((findIdx0 '"' cd.reverse).getD 0)
      let content := (cd.drop (start + 1)).take (stop - 1 - (start + 1))
      let indicator : List Char :=
        if stop < cd.length ∧ quoteIndicators.contains (cd.getD stop ' ') then
          [cd.getD stop ' ']
        else []
      let base := cd.take start ++ content
      let withInd := if keep_indicator ∧ indicator ≠ [] then base ++ indicator else base
      let tail := if stop + indicator.length < cd.length then cd.drop (stop + indicator.length) else []
      if tail ≠ [] ∧ tail.head? ≠ some '"' then ⟨withInd ++ tail⟩ else ⟨withInd⟩
    else col

/-- The literal `' -> '` separator of a symlink listing line. -/
def arrowChars : List Char := [' ', '-', '>', ' ']

/-- Python `s.split(sep, 1)` when `sep` occurs in `s`: the text before and
after the first occurrence; `none` when `sep` does not occur. -/
def splitOnSep (sep : List Char) : List Char → Option (List Char × List Char)
  | [] => none
  | c :: rest =>
    if sep.isPrefixOf (c :: rest) then some ([], (c :: rest).drop sep.length)
    else (splitOnSep sep rest).map (fun pr => (c :: pr.1, pr.2))

/-- Python `sep in s`. -/
def containsSub (sep l : List Char) : Bool :=
  (splitOnSep sep l).isSome

/-- `parts = line.strip().split(maxsplit=8)` extended with empty strings to
at least 9 entries (colls.py:77-79). -/
def padded_parts (line : String) : List String :=
  let parts := (pySplit8 (pyStrip line.data)).map (fun t => (⟨t⟩ : String))
  parts ++ List.replicate (9 - parts.length) ""

/-- `split_line_into_columns` (colls.py:75-90).  The `' -> '` test is made
on the ANSI-stripped filename unit while the split is made on the raw unit;
when the raw unit has no `' -> '` the Python tuple unpacking raises
`ValueError`, modelled as `none`. -/
def split_line_into_columns (line : String) : Option (List String) :=
  let parts := padded_parts line
  let filename_part := parts.getD 8 ""
  if containsSub arrowChars (strip_ansi_codes filename_part).data then
    match splitOnSep arrowChars filename_part.data with
    | some pr =>
      some [parts.getD 0 "", parts.getD 1 "", parts.getD 2 "", parts.getD 3 "",
        parts.getD 4 "", parts.getD 5 "", parts.getD 6 "", parts.getD 7 "",
        ⟨pr.1⟩, "->", ⟨pr.2⟩]
    | none => none
  else
    some [parts.getD 0 "", parts.getD 1 "", parts.getD 2 "", parts.getD 3 "",
      parts.getD 4 "", parts.getD 5 "", parts.getD 6 "", parts.getD 7 "",
      filename_part, " ", " "]

/-- The widths accumulated by `calculate_column_widths`: the per-column list
`widths` (11 entries) plus `extra_widths['0']` and `extra_widths['*']`. -/
structure WidthTable where
  widths : List Nat
  extra0 : Nat
  extraStar : Nat
deriving DecidableEq

/-- `widths = [0] * 11; extra_widths = {'0': 4, '*': 0}` (colls.py:94-95). -/
def initTable : WidthTable :=
  { widths := List.replicate 11 0, extra0 := 4, extraStar := 0 }

/-- `display_col` of the `calculate_column_widths` loop (colls.py:99-112):
the measured text of column `i`, with quotes optionally stripped from the
filename (8) and target (10) slots and all escapes removed. -/
def wdisplay (sq : Bool) (cols : List String) (i : Nat) : String :=
  if i = 8 then
    strip_ansi_codes (if sq then strip_quotes_python (cols.getD 8 "") true else cols.getD 8 "")
  else if i = 9 then strip_ansi_codes (cols.getD 9 "")
  else if i = 10 then
    strip_ansi_codes (if sq then strip_quotes_python (cols.getD 10 "") true else cols.getD 10 "")
  else strip_ansi_codes (cols.getD i "")

/-- The body of the `calculate_column_widths` loop (colls.py:96-113) for one
tokenized line: update every width with the visible length of the display
column (`extra_widths['0']` at slot 9, `extra_widths['*']` at slot 10). -/
def width_join (sq : Bool) (acc : WidthTable) (cols : List String) : WidthTable :=
  if cols.length = 11 then
    { widths := (List.range 11).map (fun i => max (acc.widths.getD i 0) (wdisplay sq cols i).length),
      extra0 := max acc.extra0 (wdisplay sq cols 9).length,
      extraStar := max acc.extraStar (wdisplay sq cols 10).length }
  else acc

/-- One line of the width pass; `none` propagates the tokenizer's
`ValueError`. -/
def width_step (sq : Bool) (acc : WidthTable) (line : String) : Option WidthTable :=
  (split_line_into_columns line).map (fun cols => width_join sq acc cols)

/-- `calculate_column_widths` (colls.py:92-114). -/
def calculate_column_widths (lines : List String) (strip_quotes : Bool) : Option WidthTable :=
  lines.foldl (fun o line => o.bind (fun acc => width_step strip_quotes acc line))
    (some initTable)

/-- Pointwise order on width tables (column widths 0-10 and both extra
widths). -/
def tableLe (a b : WidthTable) : Prop :=
  (∀ i, i < 11 → a.widths.getD i 0 ≤ b.widths.getD i 0) ∧
    a.extra0 ≤ b.extra0 ∧ a.extraStar ≤ b.extraStar

/-- Python `c in '123456789'`. -/
def digit19 (c : Char) : Bool :=
  '1' ≤ c && c ≤ '9'

/-- Python `c in '1234567890*'`. -/
def selChar (c : Char) : Bool :=
  digit19 c || c == '0' || c == '*'

/-- Python `' ' * n` for an `int` count: negative counts give the empty
string. -/
def spacesI (n : Int) : String :=
  ⟨List.replicate n.toNat ' '⟩

/-- Python `s.ljust(n)`: pad with spaces on the right, never truncate. -/
def pyLjust (s : String) (n : Nat) : String :=
  s ++ ⟨List.replicate (n - s.length) ' '⟩

/-- `widths[col_idx] if c in '123456789' else extra_widths['*']`
(colls.py:288). -/
def sel_width (W : WidthTable) (c : Char) : Nat :=
  if digit19 c then W.widths.getD (c.toNat - 49) 0 else W.extraStar

/-- `padding_len` (colls.py:288): target width minus visible length, a
Python `int` that may be negative. -/
def padding_len (W : WidthTable) (ocs : List String) (i : Nat) (c : Char) : Int :=
  (sel_width W c : Int) - ((strip_ansi_codes (ocs.getD i "")).length : Int)

/-- `has_following` (colls.py:289-291): a further selected identifier
follows and its column text is visibly non-blank. -/
def has_following (cts : List Char) (ocs : List String) (i : Nat) : Bool :=
  decide (i < cts.length - 1) && selChar (cts.getD (i + 1) ' ') &&
    decide (pyStripS (strip_ansi_codes (ocs.getD (i + 1) "")) ≠ "")

/-- The reverse-highlight condition (colls.py:292). -/
def hl_cond (W : WidthTable) (mp : Int) (cts : List Char) (ocs : List String)
    (i : Nat) (c : Char) : Bool :=
  (c == '9' || c == '*') && decide (0 < mp) &&
    decide (mp ≤ padding_len W ocs i c) && has_following cts ocs i

/-- The padded cell text appended to `selected_padded` for position `i` with
selected identifier `c` (colls.py:283-301). -/
def cell_core (W : WidthTable) (mp : Int) (cts : List Char) (ocs : List String)
    (i : Nat) (c : Char) : String :=
  if digit19 c || c == '*' then
    let col := ocs.getD i ""
    if hl_cond W mp cts ocs i c then
      col ++ (get_color_code col ++ "\x1b[7m" ++ spacesI (padding_len W ocs i c) ++
        "\x1b[27m" ++ "\x1b[0m")
    else col ++ spacesI (padding_len W ocs i c)
  else if c == '0' then pyLjust (ocs.getD i "") W.extra0
  else ""

/-- `selected_padded[-1] = selected_padded[-1] + suffix`. -/
def appendToLast : List String → String → List String
  | [], _ => []
  | [x], s => [x ++ s]
  | x :: y :: rest, s => x :: appendToLast (y :: rest) s

/-- The `for i, c in enumerate(columns_to_show)` rendering loop
(colls.py:283-301), including the conditional mutation of the previously
appended cell guarded by `i < len(selected_padded)`. -/
def render_loop (W : WidthTable) (mp : Int) (cts : List Char) (ocs : List String) :
    Nat → List Char → List String → List String
  | _, [], acc => acc
  | i, c :: rest, acc =>
    if digit19 c || c == '*' then
      if hl_cond W mp cts ocs i c then
        let color := get_color_code (ocs.getD i "")
        let acc' := if i < acc.length ∧ color ≠ "" then appendToLast acc color else acc
        render_loop W mp cts ocs (i + 1) rest (acc' ++ [cell_core W mp cts ocs i c])
      else render_loop W mp cts ocs (i + 1) rest (acc ++ [cell_core W mp cts ocs i c])
    else if c == '0' then
      render_loop W mp cts ocs (i + 1) rest (acc ++ [cell_core W mp cts ocs i c])
    else render_loop W mp cts ocs (i + 1) rest acc

/-- The full `selected_padded` list for one line. -/
def render_cells (W : WidthTable) (mp : Int) (cts : List Char) (ocs : List String) :
    List String :=
  render_loop W mp cts ocs 0 cts []

/-- The separator-joining loop (colls.py:302-305): separators indexed from
the second cell, out-of-range separator indices fall back to one space. -/
def join_go (seps : List String) : Nat → String → List String → String
  | _, acc, [] => acc
  | i, acc, p :: ps => join_go seps (i + 1) (acc ++ seps.getD (i - 1) " " ++ p) ps

/-- `output = selected_padded[0]; ...` (colls.py:302-305); `none` models the
`IndexError` on an empty selection. -/
def join_cells (seps : List String) (cells : List String) : Option String :=
  match cells with
  | [] => none
  | c0 :: rest => some (join_go seps 1 c0 rest)

/-- One iteration of the `for line in lines` output loop (colls.py:262-308):
the printed line together with whether `file_count` was incremented; the
dead `else: print(line)` branch is kept (`counted = false`). -/
def render_line (W : WidthTable) (cts : List Char) (seps : List String)
    (use_quotes : Bool) (max_pad : Int) (line : String) : Option (String × Bool) :=
  match split_line_into_columns line with
  | none => none
  | some cols =>
    if cols.length = 11 then
      let display8 := if use_quotes then cols.getD 8 ""
        else strip_quotes_python (cols.getD 8 "") true
      let display10 :=
        if use_quotes then cols.getD 10 ""
        else if pyStripS (strip_ansi_codes (cols.getD 10 "")) ≠ "" then
          strip_quotes_python (cols.getD 10 "") true
        else cols.getD 10 ""
      let display : Nat → String := fun i =>
        if i = 8 then display8 else if i = 10 then display10 else cols.getD i ""
      let ocs := cts.filterMap (fun c =>
        if digit19 c then some (display (c.toNat - 49))
        else if c == '0' then
          some (if pyStripS (strip_ansi_codes display10) ≠ "" then " -> " else "    ")
        else if c == '*' then
          some (if pyStripS (strip_ansi_codes display10) ≠ "" then display10
            else ⟨List.replicate W.extraStar ' '⟩)
        else none)
      let cells := render_loop W max_pad cts ocs 0 cts []
      (join_cells seps cells).map (fun out => (out, true))
    else some (line, false)

/-- The output loop over all lines: the printed lines and the final
`file_count` (colls.py:261-310). -/
def process_lines (W : WidthTable) (cts : List Char) (seps : List String)
    (use_quotes : Bool) (max_pad : Int) (lines : List String) :
    Option (List String × Nat) :=
  lines.foldl (fun o line => o.bind (fun acc =>
    (render_line W cts seps use_quotes max_pad line).map
      (fun ob => (acc.1 ++ [ob.1], acc.2 + (if ob.2 then 1 else 0)))))
    (some ([], 0))

/-- The whole per-run pipeline on the captured listing output
(colls.py:249-310, header display off): pass a leading `total` line
through, compute widths with quotes always stripped (colls.py:256), then
render every remaining line. -/
def colls_run (cts : List Char) (seps : List String) (use_quotes : Bool)
    (max_pad : Int) (lines : List String) : Option (List String × Nat) :=
  let pre : List String × List String :=
    match lines with
    | l :: rest => if pyStartsWith l "total" then ([l], rest) else ([], l :: rest)
    | [] => ([], [])
  match calculate_column_widths pre.2 true with
  | none => none
  | some W =>
    (process_lines W cts seps use_quotes max_pad pre.2).map
      (fun pr => (pre.1 ++ pr.1, pr.2))

/-! ## Basic lemmas about the escape-sequence model -/

theorem stripAnsiGo_of_no_esc {l : List Char} (h : ∀ c ∈ l, c ≠ '\x1b') :
    ∀ f, stripAnsiGo f l = l := by
  induction l with
  | nil => intro f; cases f <;> rfl
  | cons c rest ih =>
    intro f
    cases f with
    | zero => rfl
    | succ f =>
      have hc : c ≠ '\x1b' := h c (List.mem_cons_self c rest)
      have hrest : ∀ c ∈ rest, c ≠ '\x1b' := fun x hx => h x (List.mem_cons_of_mem c hx)
      simp [stripAnsiGo, hc, ih hrest f]

theorem strip_ansi_codes_of_no_esc {s : String}
    (h : ∀ c ∈ s.data, c ≠ '\x1b') : strip_ansi_codes s = s := by
  unfold strip_ansi_codes
  rw [stripAnsiGo_of_no_esc h]

theorem colorScanGo_nil : ∀ f, colorScanGo f [] = [] := by
  intro f; cases f <;> rfl

theorem colorScanGo_of_no_esc {l : List Char} (h : ∀ c ∈ l, c ≠ '\x1b') :
    ∀ f, colorScanGo f l = [] := by
  induction l with
  | nil => exact colorScanGo_nil
  | cons c rest ih =>
    intro f
    cases f with
    | zero => rfl
    | succ f =>
      have hc : c ≠ '\x1b' := h c (List.mem_cons_self c rest)
      have hrest : ∀ c ∈ rest, c ≠ '\x1b' := fun x hx => h x (List.mem_cons_of_mem c hx)
      simp [colorScanGo, hc, ih hrest f]

theorem takeParams_append_m {ps : List Char} (h : ∀ c ∈ ps, isParamChar c = true) :
    ∀ rest, takeParams (ps ++ 'm' :: rest) = some (ps, rest) := by
  induction ps with
  | nil => intro rest; simp [takeParams, isParamChar]
  | cons c ps ih =>
    intro rest
    have hc : isParamChar c = true := h c (List.mem_cons_self c ps)
    have hps : ∀ c ∈ ps, isParamChar c = true := fun x hx => h x (List.mem_cons_of_mem c hx)
    simp [takeParams, hc, ih hps rest]

theorem takeParams_append_K {ps : List Char} (h : ∀ c ∈ ps, isParamChar c = true) :
    takeParams (ps ++ ['K']) = none := by
  induction ps with
  | nil => simp [takeParams, isParamChar]
  | cons c ps ih =>
    have hc : isParamChar c = true := h c (List.mem_cons_self c ps)
    have hps : ∀ c ∈ ps, isParamChar c = true := fun x hx => h x (List.mem_cons_of_mem c hx)
    simp [takeParams, hc, ih hps]

theorem isParamChar_ne_esc {c : Char} (h : isParamChar c = true) : c ≠ '\x1b' := by
  intro he
  subst he
  simp [isParamChar] at h

theorem colorScanGo_esc_m {ps : List Char} (h : ∀ c ∈ ps, isParamChar c = true)
    (f : Nat) : colorScanGo (f + 1) ('\x1b' :: '[' :: (ps ++ ['m'])) = [ps] := by
  have h1 : takeParams (ps ++ 'm' :: []) = some (ps, []) := takeParams_append_m h []
  simp [colorScanGo, h1, colorScanGo_nil]

theorem colorScanGo_esc_K {ps : List Char} (h : ∀ c ∈ ps, isParamChar c = true)
    (f : Nat) : colorScanGo (f + 1) ('\x1b' :: '[' :: (ps ++ ['K'])) = [] := by
  have h1 := takeParams_append_K h
  have h2 : ∀ c ∈ ('[' :: (ps ++ ['K'])), c ≠ '\x1b' := by
    intro c hc
    rcases List.mem_cons.mp hc with rfl | hc2
    · decide
    rcases List.mem_append.mp hc2 with hp | hk
    · exact isParamChar_ne_esc (h c hp)
    · rcases List.mem_singleton.mp hk with rfl
      decide

  simp [colorScanGo, h1]
  exact colorScanGo_of_no_esc h2 f

/-- C10: `get_color_code` treats only the exact parameter string `0` as the
reset parameter: a single `m`-terminated escape with any other parameter
string, including the empty one (`ESC[m`) and zero-padded ones (`ESC[00m`),
is returned as the last active color, while any `K`-terminated sequence is
never matched at all and yields the empty result. -/
theorem C10_reset_exact_zero :
    (∀ ps : List Char, (∀ c ∈ ps, isParamChar c = true) →
        get_color_code ⟨'\x1b' :: '[' :: (ps ++ ['m'])⟩ =
          (if ps = ['0'] then "" else ⟨'\x1b' :: '[' :: (ps ++ ['m'])⟩)) ∧
    (∀ ps : List Char, (∀ c ∈ ps, isParamChar c = true) →
        get_color_code ⟨'\x1b' :: '[' :: (ps ++ ['K'])⟩ = "") := by
  constructor
  · intro ps h
    unfold get_color_code
    have hlen : (String.mk ('\x1b' :: '[' :: (ps ++ ['m']))).data.length = ps.length + 2 + 1 := by
      simp
    rw [show (String.mk ('\x1b' :: '[' :: (ps ++ ['m']))).data =
      '\x1b' :: '[' :: (ps ++ ['m']) from rfl] at hlen ⊢
    rw [hlen, colorScanGo_esc_m h]
    by_cases hps : ps = ['0']
    · subst hps
      simp
    · simp [hps]
  · intro ps h
    unfold get_color_code
    have hlen : (String.mk ('\x1b' :: '[' :: (ps ++ ['K']))).data.length = ps.length + 2 + 1 := by
      simp
    rw [show (String.mk ('\x1b' :: '[' :: (ps ++ ['K']))).data =
      '\x1b' :: '[' :: (ps ++ ['K']) from rfl] at hlen ⊢
    rw [hlen, colorScanGo_esc_K h]
    rfl

theorem C10_witness :
    get_color_code ⟨'\x1b' :: '[' :: (['0', '0'] ++ ['m'])⟩ = "\x1b[00m" ∧
    get_color_code ⟨'\x1b' :: '[' :: (['3', '1'] ++ ['K'])⟩ = "" ∧
    get_color_code ⟨'\x1b' :: '[' :: (([] : List Char) ++ ['m'])⟩ = "\x1b[m" :=
  ⟨(C10_reset_exact_zero.1 ['0', '0'] (by decide)).trans (by decide),
   C10_reset_exact_zero.2 ['3', '1'] (by decide),
   (C10_reset_exact_zero.1 [] (by decide)).trans (by decide)⟩

/-- C3 counterexample: stripping is not idempotent.  In
`ESC ESC[0m [0m` the first pass removes the inner `ESC[0m`, splicing the
surrounding characters into a fresh `ESC[0m` that a second pass removes. -/
theorem C3_counterexample :
    strip_ansi_codes (strip_ansi_codes "\x1b\x1b[0m[0m") ≠
      strip_ansi_codes "\x1b\x1b[0m[0m" := by decide

/-- C3 (amended): `strip_ansi_codes` is idempotent on every string whose
stripped form contains no escape-introducer character, in particular on
every input without a stray `ESC` that removal could splice into a new
escape sequence. -/
theorem C3_idempotent_amended (s : String)
    (h : ∀ c ∈ (strip_ansi_codes s).data, c ≠ '\x1b') :
    strip_ansi_codes (strip_ansi_codes s) = strip_ansi_codes s :=
  strip_ansi_codes_of_no_esc h

theorem C3_witness :
    strip_ansi_codes (strip_ansi_codes "a\x1b[31mb") = strip_ansi_codes "a\x1b[31mb" :=
  C3_idempotent_amended "a\x1b[31mb" (by decide)

/-- C6: unwrapping the quoted value `"a"b"` with trailing indicator `/` and
the indicator kept yields `a"b/`: only the outermost quote pair is removed,
the embedded quote survives, and the indicator is re-attached. -/
theorem C6_embedded_quote :
    strip_quotes_python "\"a\"b\"/" true = "a\"b/" := by decide

/-- C1 counterexample: the tokenizer is not total.  On this line the
escape-stripped filename unit contains `' -> '` but the raw unit does not
(an escape bisects the arrow), so `filename_part.split(' -> ', 1)` yields a
single chunk and the two-name unpacking raises `ValueError` (`none`). -/
theorem C1_counterexample :
    split_line_into_columns "a b c d e f g h x -\x1b[m> y" = none := by decide

/-- C1 (amended): whenever the tokenizer returns it returns exactly 11
strings, missing trailing slots padded with empty strings; it fails
(raises) precisely on lines whose padded filename unit contains `' -> '`
in its escape-stripped view but not in its raw text. -/
theorem C1_tokenizer_amended :
    (∀ (line : String) (cols : List String),
        split_line_into_columns line = some cols → cols.length = 11) ∧
    (∀ line : String,
        split_line_into_columns line = none ↔
          (containsSub arrowChars (strip_ansi_codes ((padded_parts line).getD 8 "")).data = true ∧
            containsSub arrowChars ((padded_parts line).getD 8 "").data = false)) := by
  constructor
  · intro line cols h
    simp only [split_line_into_columns] at h
    split at h
    · split at h
      · simp only [Option.some.injEq] at h
        subst h
        rfl
      · simp at h
    · simp only [Option.some.injEq] at h
      subst h
      rfl
  · intro line
    simp only [split_line_into_columns]
    cases hA : containsSub arrowChars (strip_ansi_codes ((padded_parts line).getD 8 "")).data with
    | false => simp
    | true =>
      rw [if_pos rfl]
      cases hsp : splitOnSep arrowChars ((padded_parts line).getD 8 "").data with
      | none =>
        have h2 := hsp
        simp at h2
        simp [containsSub, h2]
      | some pr =>
        have h2 := hsp
        simp at h2
        simp [containsSub, h2]

theorem C1_witness :
    (["a", "b", "", "", "", "", "", "", "", " ", " "] : List String).length = 11 :=
  C1_tokenizer_amended.1 "a b" ["a", "b", "", "", "", "", "", "", "", " ", " "] (by decide)

/-- C2: evaluating the pipeline at the failing input.  The line `hello`
does not describe a listing row, yet the tokenizer pads it to 11 fields,
so the `len(columns) == 11` guard holds, the line is re-rendered (here as
the empty string under selection `9`) instead of being passed through, and
`file_count` is incremented to 1. -/
theorem C2_failing_input_eval :
    colls_run ['9'] [] false 5 ["hello"] = some ([""], 1) := by decide

/-- C5 counterexample: with selection `9,0,*`, default single-space
separators and quotes off, the scenario line does not render as
`link -> target`. -/
theorem C5_counterexample :
    colls_run ['9', '0', '*'] [" ", " "] false 5
        ["lrwxrwxrwx 1 alice staff 7 Mar 3 10:00 \"link\" -> \"target\""] ≠
      some (["link -> target"], 1) := by decide

/-- C5 (amended): the produced output line is `link  ->  target` with two
spaces on each side of the arrow: the arrow cell is the four-character
`' -> '` and the single-space separators are added around it. -/
theorem C5_scenario_amended :
    colls_run ['9', '0', '*'] [" ", " "] false 5
        ["lrwxrwxrwx 1 alice staff 7 Mar 3 10:00 \"link\" -> \"target\""] =
      some (["link  ->  target"], 1) := by decide

/-! ## Structure of the rendering loop -/

theorem string_append_empty (s : String) : s ++ "" = s := by
  cases s with
  | mk d =>
    show String.mk (d ++ []) = String.mk d
    rw [List.append_nil]

theorem getD_of_drop {α} (l : List α) (i : Nat) (c : α) (rest : List α) (d : α)
    (h : l.drop i = c :: rest) : l.getD i d = c := by
  have h0 : (l.drop i)[0]? = some c := by simp [h]
  rw [List.getElem?_drop] at h0
  simp only [Nat.add_zero] at h0
  simp [List.getD_eq_getElem?_getD, h0]

theorem drop_succ_of_drop {α} (l : List α) (i : Nat) (c : α) (rest : List α)
    (h : l.drop i = c :: rest) : l.drop (i + 1) = rest := by
  have h1 : l.drop (i + 1) = (l.drop i).drop 1 := by
    rw [List.drop_drop, Nat.add_comm]
  rw [h1, h]
  rfl

theorem getD_map_range {α} (n : Nat) (f : Nat → α) (i : Nat) (h : i < n) (d : α) :
    ((List.range n).map f).getD i d = f i := by
  simp [List.getD_eq_getElem?_getD, List.getElem?_range, h]

theorem hl_cond_iff (W : WidthTable) (mp : Int) (cts : List Char) (ocs : List String)
    (i : Nat) (c : Char) :
    hl_cond W mp cts ocs i c = true ↔
      ((c == '9' || c == '*') = true ∧ 0 < mp ∧ mp ≤ padding_len W ocs i c ∧
        has_following cts ocs i = true) := by
  unfold hl_cond
  simp [and_assoc]

theorem render_loop_eq (W : WidthTable) (mp : Int) (cts : List Char) (ocs : List String) :
    ∀ (rest : List Char) (i : Nat) (acc : List String),
      (∀ c ∈ rest, selChar c = true) → acc.length = i → cts.drop i = rest →
      render_loop W mp cts ocs i rest acc =
        acc ++ (List.range' i rest.length).map
          (fun j => cell_core W mp cts ocs j (cts.getD j ' ')) := by
  intro rest
  induction rest with
  | nil =>
    intro i acc _ _ _
    simp [render_loop]
  | cons c rest' ih =>
    intro i acc hv hlen hdrop
    have hc : selChar c = true := hv c (List.mem_cons_self c rest')
    have hv' : ∀ x ∈ rest', selChar x = true := fun x hx => hv x (List.mem_cons_of_mem c hx)
    have hgetD : cts.getD i ' ' = c := getD_of_drop cts i c rest' ' ' hdrop
    have hgetD2 : cts[i]?.getD ' ' = c := by
      simpa [List.getD_eq_getElem?_getD] using hgetD
    have hdrop' : cts.drop (i + 1) = rest' := drop_succ_of_drop cts i c rest' hdrop
    have hstep := ih (i + 1) (acc ++ [cell_core W mp cts ocs i c]) hv' (by simp [hlen]) hdrop'
    by_cases h1 : (digit19 c || c == '*') = true
    · by_cases h2 : hl_cond W mp cts ocs i c = true
      · have hguard : ¬ (i < acc.length ∧ get_color_code (ocs.getD i "") ≠ "") := by
          rintro ⟨hlt, -⟩
          rw [hlen] at hlt
          exact lt_irrefl i hlt
        simp only [render_loop, h1, if_true, h2]
        rw [if_neg hguard, hstep]
        simp [List.range', hgetD, hgetD2]
      · simp only [render_loop, h1, if_true]
        rw [if_neg h2, hstep]
        simp [List.range', hgetD, hgetD2]
    · have hd : digit19 c = false := by
        cases hdc : digit19 c
        · rfl
        · exact absurd (by simp [hdc]) h1
      have hs : (c == '*') = false := by
        cases hsc : (c == '*')
        · rfl
        · exact absurd (by simp [hsc]) h1
      have h0 : (c == '0') = true := by
        have hx := hc
        unfold selChar at hx
        rw [hd, hs] at hx
        simpa using hx
      simp only [render_loop]
      rw [if_neg (by simp [h1]), if_pos h0, hstep]
      simp [List.range', hgetD, hgetD2]

theorem render_cells_eq (W : WidthTable) (mp : Int) (cts : List Char) (ocs : List String)
    (hv : ∀ c ∈ cts, selChar c = true) :
    render_cells W mp cts ocs =
      (List.range cts.length).map (fun j => cell_core W mp cts ocs j (cts.getD j ' ')) := by
  unfold render_cells
  rw [render_loop_eq W mp cts ocs cts 0 [] hv rfl rfl]
  simp [List.range_eq_range']

/-- C8 counterexample: at this input the highlight fires for the second
selected column (`9`), whose last active color is `ESC[36m`, yet the first
cell stays `l` — the color is never appended to the previously rendered
column, because `i < len(selected_padded)` can never hold. -/
theorem C8_counterexample :
    render_cells ⟨[1, 1, 1, 1, 1, 1, 1, 1, 12, 2, 1], 4, 1⟩ 5 ['1', '9', '*']
        ["l", "\x1b[36ms\x1b[0m", "t"] =
      ["l", "\x1b[36ms\x1b[0m\x1b[36m\x1b[7m           \x1b[27m\x1b[0m", "t"] ∧
    get_color_code "\x1b[36ms\x1b[0m" = "\x1b[36m" ∧
    hl_cond ⟨[1, 1, 1, 1, 1, 1, 1, 1, 12, 2, 1], 4, 1⟩ 5 ['1', '9', '*']
        ["l", "\x1b[36ms\x1b[0m", "t"] 1 '9' = true ∧
    (render_cells ⟨[1, 1, 1, 1, 1, 1, 1, 1, 12, 2, 1], 4, 1⟩ 5 ['1', '9', '*']
        ["l", "\x1b[36ms\x1b[0m", "t"]).getD 0 "" ≠ "l" ++ "\x1b[36m" :=
  ⟨by decide, by decide, by decide, by decide⟩

/-- C8 (amended): when every selected identifier is a valid column
character, the rendering loop appends exactly one cell per identifier, so
the `i < len(selected_padded)` guard of the color-append is always false
and each rendered cell depends only on its own index — rendering one
column never modifies the text emitted for another column. -/
theorem C8_no_cross_column_effect (W : WidthTable) (mp : Int) (cts : List Char)
    (ocs : List String) (hv : ∀ c ∈ cts, selChar c = true) :
    render_cells W mp cts ocs =
      (List.range cts.length).map (fun j => cell_core W mp cts ocs j (cts.getD j ' ')) :=
  render_cells_eq W mp cts ocs hv

theorem C8_witness :
    render_cells ⟨List.replicate 11 0, 4, 0⟩ 5 ['9', '*'] ["a", "b"] = ["a", "b"] :=
  (C8_no_cross_column_effect ⟨List.replicate 11 0, 4, 0⟩ 5 ['9', '*'] ["a", "b"]
    (by decide)).trans (by decide)

/-- C4: for a selected filename (`9`) or target (`*`) column the emitted
padding is the reverse-video run if and only if `max_pad > 0`, the needed
padding length is at least `max_pad`, and the following selected column has
visible content; in particular `max_pad = 0` forces plain-space padding,
and the last selected column is never highlighted. -/
theorem C4_highlight_iff (W : WidthTable) (mp : Int) (cts : List Char) (ocs : List String)
    (hv : ∀ c ∈ cts, selChar c = true) (i : Nat) (hi : i < cts.length)
    (hc : cts.getD i ' ' = '9' ∨ cts.getD i ' ' = '*') :
    ((render_cells W mp cts ocs).getD i "" =
      if 0 < mp ∧ mp ≤ padding_len W ocs i (cts.getD i ' ') ∧
          has_following cts ocs i = true then
        ocs.getD i "" ++ (get_color_code (ocs.getD i "") ++ "\x1b[7m" ++
          spacesI (padding_len W ocs i (cts.getD i ' ')) ++ "\x1b[27m" ++ "\x1b[0m")
      else ocs.getD i "" ++ spacesI (padding_len W ocs i (cts.getD i ' '))) ∧
    (mp = 0 → (render_cells W mp cts ocs).getD i "" =
      ocs.getD i "" ++ spacesI (padding_len W ocs i (cts.getD i ' '))) ∧
    (i = cts.length - 1 → (render_cells W mp cts ocs).getD i "" =
      ocs.getD i "" ++ spacesI (padding_len W ocs i (cts.getD i ' '))) := by
  have hcell : (render_cells W mp cts ocs).getD i "" =
      cell_core W mp cts ocs i (cts.getD i ' ') := by
    rw [render_cells_eq W mp cts ocs hv]
    exact getD_map_range cts.length _ i hi ""
  have hd : (digit19 (cts.getD i ' ') || (cts.getD i ' ') == '*') = true := by
    rcases hc with h | h <;> rw [h] <;> decide
  have h9s : ((cts.getD i ' ') == '9' || (cts.getD i ' ') == '*') = true := by
    rcases hc with h | h <;> rw [h] <;> decide
  refine ⟨?_, ?_, ?_⟩
  · rw [hcell]
    unfold cell_core
    rw [if_pos hd]
    by_cases hcond : 0 < mp ∧ mp ≤ padding_len W ocs i (cts.getD i ' ') ∧
        has_following cts ocs i = true
    · rw [if_pos hcond,
        if_pos ((hl_cond_iff W mp cts ocs i (cts.getD i ' ')).mpr
          ⟨h9s, hcond.1, hcond.2.1, hcond.2.2⟩)]
    · have hfalse : ¬ hl_cond W mp cts ocs i (cts.getD i ' ') = true := by
        intro hx
        rcases (hl_cond_iff W mp cts ocs i (cts.getD i ' ')).mp hx with ⟨-, ha, hb, hcf⟩
        exact hcond ⟨ha, hb, hcf⟩
      rw [if_neg hcond, if_neg hfalse]
  · intro hmp
    subst hmp
    rw [hcell]
    unfold cell_core
    rw [if_pos hd]
    have hfalse : ¬ hl_cond W 0 cts ocs i (cts.getD i ' ') = true := by
      intro hx
      rcases (hl_cond_iff W 0 cts ocs i (cts.getD i ' ')).mp hx with ⟨-, ha, -, -⟩
      exact lt_irrefl 0 ha
    rw [if_neg hfalse]
  · intro hlast
    have hf : has_following cts ocs i = false := by
      unfold has_following
      have hnl : ¬ (i < cts.length - 1) := by omega
      simp [hnl]
    rw [hcell]
    unfold cell_core
    rw [if_pos hd]
    have hfalse : ¬ hl_cond W mp cts ocs i (cts.getD i ' ') = true := by
      intro hx
      rcases (hl_cond_iff W mp cts ocs i (cts.getD i ' ')).mp hx with ⟨-, -, -, hcf⟩
      rw [hf] at hcf
      exact Bool.false_ne_true hcf
    rw [if_neg hfalse]

theorem C4_witness :
    (render_cells ⟨[0, 0, 0, 0, 0, 0, 0, 0, 9, 0, 0], 4, 1⟩ 3 ['9', '*']
        ["abc", "t"]).getD 0 "" = "abc\x1b[7m      \x1b[27m\x1b[0m" :=
  ((C4_highlight_iff ⟨[0, 0, 0, 0, 0, 0, 0, 0, 9, 0, 0], 4, 1⟩ 3 ['9', '*'] ["abc", "t"]
    (by decide) 0 (by decide) (Or.inl rfl)).1).trans (by decide)

/-- C9: a rendered `9`/`1`-`8`/`*` column whose visible length exceeds its
computed width is emitted with empty padding: the Python `' ' * n` on the
negative padding count yields the empty string, so the cell is exactly the
column text, untruncated, and no failure occurs. -/
theorem C9_overflow_safe (W : WidthTable) (mp : Int) (cts : List Char) (ocs : List String)
    (hv : ∀ c ∈ cts, selChar c = true) (i : Nat) (hi : i < cts.length)
    (hc : digit19 (cts.getD i ' ') = true ∨ cts.getD i ' ' = '*')
    (hover : sel_width W (cts.getD i ' ') < (strip_ansi_codes (ocs.getD i "")).length) :
    (render_cells W mp cts ocs).getD i "" = ocs.getD i "" ∧
      spacesI (padding_len W ocs i (cts.getD i ' ')) = "" := by
  have hpad_neg : padding_len W ocs i (cts.getD i ' ') < 0 := by
    unfold padding_len
    omega
  have hsp : spacesI (padding_len W ocs i (cts.getD i ' ')) = "" := by
    unfold spacesI
    rw [Int.toNat_of_nonpos (le_of_lt hpad_neg)]
    rfl
  refine ⟨?_, hsp⟩
  have hcell : (render_cells W mp cts ocs).getD i "" =
      cell_core W mp cts ocs i (cts.getD i ' ') := by
    rw [render_cells_eq W mp cts ocs hv]
    exact getD_map_range cts.length _ i hi ""
  have hd : (digit19 (cts.getD i ' ') || (cts.getD i ' ') == '*') = true := by
    rcases hc with h | h
    · rw [h]
      rfl
    · rw [h]
      decide
  rw [hcell]
  unfold cell_core
  rw [if_pos hd]
  have hfalse : ¬ hl_cond W mp cts ocs i (cts.getD i ' ') = true := by
    intro hx
    rcases (hl_cond_iff W mp cts ocs i (cts.getD i ' ')).mp hx with ⟨-, ha, hb, -⟩
    omega
  rw [if_neg hfalse, hsp]
  exact string_append_empty _

theorem C9_witness :
    (render_cells ⟨List.replicate 11 0, 4, 0⟩ 5 ['9'] ["ab"]).getD 0 "" = "ab" ∧
      spacesI (padding_len ⟨List.replicate 11 0, 4, 0⟩ ["ab"] 0 '9') = "" :=
  C9_overflow_safe ⟨List.replicate 11 0, 4, 0⟩ 5 ['9'] ["ab"] (by decide) 0 (by decide)
    (Or.inl (by decide)) (by decide)

/-! ## The width pass: monotone, order-independent accumulation -/

theorem tableLe_refl (a : WidthTable) : tableLe a a :=
  ⟨fun _ _ => le_refl _, le_refl _, le_refl _⟩

theorem width_join_le (sq : Bool) (acc : WidthTable) (cols : List String) :
    tableLe acc (width_join sq acc cols) := by
  unfold width_join
  by_cases h : cols.length = 11
  · rw [if_pos h]
    refine ⟨fun i hi => ?_, Nat.le_max_left _ _, Nat.le_max_left _ _⟩
    rw [getD_map_range 11 _ i hi 0]
    exact Nat.le_max_left _ _
  · rw [if_neg h]
    exact tableLe_refl acc

theorem nat_max_right_comm (a b c : Nat) : max (max a b) c = max (max a c) b := by
  rw [Nat.max_assoc, Nat.max_comm b c, ← Nat.max_assoc]

theorem width_join_of_len {cols : List String} (sq : Bool) (acc : WidthTable)
    (h : cols.length = 11) :
    width_join sq acc cols =
      { widths := (List.range 11).map
          (fun i => max (acc.widths.getD i 0) (wdisplay sq cols i).length),
        extra0 := max acc.extra0 (wdisplay sq cols 9).length,
        extraStar := max acc.extraStar (wdisplay sq cols 10).length } := by
  unfold width_join
  rw [if_pos h]

theorem width_join_comm (sq : Bool) (a : WidthTable) (c1 c2 : List String) :
    width_join sq (width_join sq a c1) c2 = width_join sq (width_join sq a c2) c1 := by
  by_cases h1 : c1.length = 11 <;> by_cases h2 : c2.length = 11
  · rw [width_join_of_len sq a h1, width_join_of_len sq a h2,
      width_join_of_len sq _ h2, width_join_of_len sq _ h1]
    congr 1
    · apply List.map_congr_left
      intro i hi
      have hi11 : i < 11 := List.mem_range.mp hi
      dsimp only
      rw [getD_map_range 11 _ i hi11 0, getD_map_range 11 _ i hi11 0]
      exact nat_max_right_comm _ _ _
    · dsimp only
      exact nat_max_right_comm _ _ _
    · dsimp only
      exact nat_max_right_comm _ _ _
  · simp [width_join, h1, h2]
  · simp [width_join, h1, h2]
  · simp [width_join, h1, h2]

theorem calc_append_single (lines : List String) (x : String) (sq : Bool) :
    calculate_column_widths (lines ++ [x]) sq =
      (calculate_column_widths lines sq).bind (fun acc => width_step sq acc x) := by
  unfold calculate_column_widths
  rw [List.foldl_append]
  rfl

theorem width_step_le (sq : Bool) (acc : WidthTable) (x : String) (acc' : WidthTable)
    (h : width_step sq acc x = some acc') : tableLe acc acc' := by
  unfold width_step at h
  cases hs : split_line_into_columns x with
  | none =>
    rw [hs] at h
    simp at h
  | some cols =>
    rw [hs] at h
    simp only [Option.map_some', Option.some.injEq] at h
    rw [← h]
    exact width_join_le sq acc cols

theorem calc_fold_comm (sq : Bool) (o : Option WidthTable) (x y : String) :
    (o.bind (fun acc => width_step sq acc x)).bind (fun acc => width_step sq acc y) =
      (o.bind (fun acc => width_step sq acc y)).bind (fun acc => width_step sq acc x) := by
  cases o with
  | none => rfl
  | some a =>
    simp only [Option.some_bind]
    unfold width_step
    cases hx : split_line_into_columns x with
    | none =>
      cases hy : split_line_into_columns y with
      | none => simp
      | some cy => simp
    | some cx =>
      cases hy : split_line_into_columns y with
      | none => simp
      | some cy =>
        simp only [Option.map_some', Option.some_bind, Option.some.injEq]
        exact width_join_comm sq a cx cy

theorem calc_perm (sq : Bool) {B B' : List String} (p : List.Perm B B') :
    calculate_column_widths B sq = calculate_column_widths B' sq := by
  have key : ∀ (o : Option WidthTable),
      B.foldl (fun o line => o.bind (fun acc => width_step sq acc line)) o =
        B'.foldl (fun o line => o.bind (fun acc => width_step sq acc line)) o := by
    induction p with
    | nil => intro o; rfl
    | cons x p ih =>
      intro o
      simp only [List.foldl_cons]
      exact ih _
    | swap x y l =>
      intro o
      simp only [List.foldl_cons]
      rw [calc_fold_comm sq o]
    | trans p1 p2 ih1 ih2 =>
      intro o
      exact (ih1 o).trans (ih2 o)
  exact key (some initTable)

/-- C7: every entry of the width table (the 11 column widths and both extra
widths) is monotonically non-decreasing when a line is appended to the
batch, and the computed table does not depend on the order of the lines in
the batch. -/
theorem C7_widths_monotone_perm :
    (∀ (sq : Bool) (B : List String) (x : String) (W W' : WidthTable),
        calculate_column_widths B sq = some W →
        calculate_column_widths (B ++ [x]) sq = some W' → tableLe W W') ∧
    (∀ (sq : Bool) (B B' : List String), List.Perm B B' →
        calculate_column_widths B sq = calculate_column_widths B' sq) := by
  constructor
  · intro sq B x W W' hB hBx
    rw [calc_append_single B x sq, hB, Option.some_bind] at hBx
    exact width_step_le sq W x W' hBx
  · intro sq B B' p
    exact calc_perm sq p

theorem C7_witness :
    tableLe initTable ⟨[0, 0, 0, 0, 0, 0, 0, 0, 0, 1, 1], 4, 1⟩ :=
  C7_widths_monotone_perm.1 true [] "" initTable ⟨[0, 0, 0, 0, 0, 0, 0, 0, 0, 1, 1], 4, 1⟩
    rfl (by decide)
